import Mathlib

/-!
Shallow embedding of the gopenbridge chat-proxy core (package `proxy`,
file with `processRequest` / `convertMessages` / `detectProvider` /
`convertToolsForProvider`, plus the pieces of `config.Config` it reads).

Decoded Go JSON values (`interface\x7b\x7d` trees produced by
`encoding/json.Unmarshal`) are modelled by the `Json` inductive below;
Go maps are association lists looked up by key, and the comma-ok type
assertions of the source (`v, ok := x.(T)`) are modelled by pattern
matches that fall back to the Go zero value exactly where the source
does.  Numbers are modelled as integers: every numeric value the
translated code paths inspect (token counts, ids) is integral, and no
claim exercises fractional arithmetic.
-/

/-- A decoded JSON value, as produced by Go's `encoding/json` into
`interface\x7b\x7d`: `nil`, `bool`, number, `string`, `[]interface\x7b\x7d`,
or `map[string]interface\x7b\x7d` (kept as an association list). -/
inductive Json where
  | null : Json
  | bool : Bool → Json
  | num : Int → Json
  | str : String → Json
  | arr : List Json → Json
  | obj : List (String × Json) → Json

/-- Key lookup in a decoded JSON object, i.e. `m[key]` on a Go map
(`none` plays the role of Go's `nil` for a missing key). -/
def lookupField : List (String × Json) → String → Option Json
  | [], _ => none
  | (k, v) :: rest, key => if k == key then some v else lookupField rest key

/-- `x[key]` on a whole JSON value: Go indexes a `map[string]interface\x7b\x7d`;
indexing anything that is not an object yields nothing. -/
def Json.getField : Json → String → Option Json
  | .obj fields, key => lookupField fields key
  | _, _ => none

/-- The fields of a JSON value under the comma-ok assertion
`m, ok := x.(map[string]interface\x7b\x7d)`: a non-object gives Go's nil map,
whose every lookup misses. -/
def objFieldsOf : Json → List (String × Json)
  | .obj m => m
  | _ => []

/-- The string held at `key`, via `s, _ := m[key].(string)`: Go's zero
value `""` when the key is missing or the value is not a string. -/
def strFieldOf (m : List (String × Json)) (key : String) : String :=
  match lookupField m key with
  | some (.str s) => s
  | _ => ""

/-- True exactly when the value is a JSON string or array — the two
content shapes `convertMessages` handles (`case string` / `case
[]interface\x7b\x7d`). -/
def Json.isStringOrArray : Json → Bool
  | .str _ => true
  | .arr _ => true
  | _ => false

/- ### String helpers (char-level, so that concrete proofs reduce) -/

/-- Opening brace as a string (written by code point to keep the
serialized text readable in goals). -/
def lbrace : String := String.singleton (Char.ofNat 123)

/-- Closing brace as a string. -/
def rbrace : String := String.singleton (Char.ofNat 125)

/-- Does `str` start with `sub`?  Char-by-char model of the byte
comparison inside Go's `strings.Contains`. -/
def listStartsWith : List Char → List Char → Bool
  | a :: as, b :: bs => a == b && listStartsWith as bs
  | [], _ => true
  | _ :: _, [] => false

/-- Substring search over char lists (Go strings here are ASCII, where
byte positions and char positions coincide). -/
def listContainsSub (sub : List Char) : List Char → Bool
  | [] => sub.isEmpty
  | c :: rest => listStartsWith sub (c :: rest) || listContainsSub sub rest

/-- `strings.Contains s sub`. -/
def strContains (s sub : String) : Bool :=
  listContainsSub sub.data s.data

/-- ASCII lower-casing of one char, as `strings.ToLower` does on the
ASCII base URLs this program compares (the source never feeds it
non-ASCII). -/
def goLowerChar (c : Char) : Char :=
  if 65 ≤ c.toNat ∧ c.toNat ≤ 90 then Char.ofNat (c.toNat + 32) else c

/-- `strings.ToLower` for ASCII strings. -/
def goToLower (s : String) : String :=
  String.mk (s.data.map goLowerChar)

/- ### JSON serialization: Go's `encoding/json.Marshal` on decoded values -/

/-- Escapes one char inside a marshalled JSON string (the escapes the
source's concrete strings can hit; `encoding/json` additionally escapes
HTML metacharacters and other control bytes, which no value in this
development contains). -/
def escapeChar (c : Char) : String :=
  if c == '"' then "\\\""
  else if c == '\\' then "\\\\"
  else if c == '\n' then "\\n"
  else if c == '\t' then "\\t"
  else if c == '\r' then "\\r"
  else String.singleton c

/-- Escapes a string body for JSON output. -/
def escapeString (s : String) : String :=
  String.join (s.data.map escapeChar)

/-- A marshalled JSON string literal. -/
def quoteStr (s : String) : String :=
  "\"" ++ escapeString s ++ "\""

/-- Comma-joins already-rendered elements. -/
def joinComma : List String → String
  | [] => ""
  | [s] => s
  | s :: t :: rest => s ++ "," ++ joinComma (t :: rest)

/-- Insertion of one rendered field into a key-sorted list —
`json.Marshal` emits Go map keys in sorted byte order. -/
def insertPairSorted (p : String × String) : List (String × String) → List (String × String)
  | [] => [p]
  | q :: rest => if p.1 < q.1 then p :: q :: rest else q :: insertPairSorted p rest

/-- Sorts rendered fields by key. -/
def sortPairs (l : List (String × String)) : List (String × String) :=
  l.foldr insertPairSorted []

/-- One rendered object member `"key":value`. -/
def renderMember (p : String × String) : String :=
  quoteStr p.1 ++ ":" ++ p.2

mutual
/-- `json.Marshal` of a decoded JSON value (object keys sorted, no
inserted whitespace, `nil` marshalled as `null` — all as Go does). -/
def serialize : Json → String
  | .null => "null"
  | .bool true => "true"
  | .bool false => "false"
  | .num n => toString n
  | .str s => quoteStr s
  | .arr xs => "[" ++ joinComma (serializeList xs) ++ "]"
  | .obj fs => lbrace ++ joinComma ((sortPairs (serializeFields fs)).map renderMember) ++ rbrace

/-- Renders each array element. -/
def serializeList : List Json → List String
  | [] => []
  | x :: xs => serialize x :: serializeList xs

/-- Renders each field's value, keeping its key. -/
def serializeFields : List (String × Json) → List (String × String)
  | [] => []
  | (k, v) :: fs => (k, serialize v) :: serializeFields fs
end


/- ### JSON parsing: `encoding/json.Unmarshal` of a string into a map -/

/-- JSON whitespace. -/
def isWsChar : Char → Bool
  | ' ' => true
  | '\n' => true
  | '\t' => true
  | '\r' => true
  | _ => false

/-- Skips leading whitespace. -/
def skipWs : List Char → List Char
  | [] => []
  | c :: cs => if isWsChar c then skipWs cs else c :: cs

/-- The resolvable string escapes (the set the source's inputs can
contain; `\uXXXX` never occurs in them). -/
def escapeTable : List (Char × Char) :=
  [('"', '"'), ('\\', '\\'), ('/', '/'), ('n', '\n'), ('t', '\t'), ('r', '\r')]

/-- Looks the escape up in the table. -/
def unescapeChar (c : Char) : Option Char :=
  (escapeTable.find? fun p => p.1 == c).map fun p => p.2

/-- Parses a string body after the opening quote, returning it and the
unconsumed rest. -/
def parseStringBody : List Char → Option (String × List Char)
  | [] => none
  | c :: cs =>
    if c == '"' then some ("", cs)
    else if c == '\\' then
      match cs with
      | [] => none
      | e :: cs2 =>
        match unescapeChar e with
        | none => none
        | some ec =>
          match parseStringBody cs2 with
          | none => none
          | some (s, rest) => some (String.singleton ec ++ s, rest)
    else
      match parseStringBody cs with
      | none => none
      | some (s, rest) => some (String.singleton c ++ s, rest)

/-- Consumes a run of decimal digits, accumulating their value. -/
def takeDigits : Nat → List Char → Nat × List Char
  | acc, [] => (acc, [])
  | acc, c :: cs =>
    if c.isDigit then takeDigits (acc * 10 + (c.toNat - 48)) cs else (acc, c :: cs)

/-- Parses an integer JSON number (every number a claim feeds through
the parser is integral; a fractional input would simply fail to parse,
like any other malformed argument string). -/
def parseNumber : List Char → Option (Json × List Char)
  | [] => none
  | c :: cs =>
    if c == '-' then
      match cs with
      | d :: _ =>
        if d.isDigit then
          let r := takeDigits 0 cs
          some (.num (-(r.1 : Int)), r.2)
        else none
      | [] => none
    else if c.isDigit then
      let r := takeDigits 0 (c :: cs)
      some (.num (r.1 : Int), r.2)
    else none

/-- Consumes an expected literal tail (`rue`, `alse`, `ull`). -/
def stripLit : List Char → List Char → Option (List Char)
  | [], cs => some cs
  | _ :: _, [] => none
  | l :: ls, c :: cs => if l == c then stripLit ls cs else none

mutual
/-- Parses one JSON value (fuel-indexed recursive descent; the fuel
passed by `parseJson` always exceeds the nesting a finite input can
have, since every recursive call follows at least one consumed char). -/
def parseVal : Nat → List Char → Option (Json × List Char)
  | 0, _ => none
  | Nat.succ fuel, cs =>
    match skipWs cs with
    | [] => none
    | c :: rest =>
      if c == '"' then
        match parseStringBody rest with
        | some (s, r) => some (.str s, r)
        | none => none
      else if c == Char.ofNat 123 then
        match skipWs rest with
        | d :: r2 =>
          if d == Char.ofNat 125 then some (.obj [], r2)
          else parseMembers fuel (d :: r2)
        | [] => none
      else if c == '[' then
        match skipWs rest with
        | d :: r2 =>
          if d == ']' then some (.arr [], r2)
          else parseItems fuel (d :: r2)
        | [] => none
      else if c == 't' then
        match stripLit ['r', 'u', 'e'] rest with
        | some r => some (.bool true, r)
        | none => none
      else if c == 'f' then
        match stripLit ['a', 'l', 's', 'e'] rest with
        | some r => some (.bool false, r)
        | none => none
      else if c == 'n' then
        match stripLit ['u', 'l', 'l'] rest with
        | some r => some (.null, r)
        | none => none
      else parseNumber (c :: rest)

/-- Parses `"key": value` members up to the closing brace (entered at a
non-brace char). -/
def parseMembers : Nat → List Char → Option (Json × List Char)
  | 0, _ => none
  | Nat.succ fuel, cs =>
    match cs with
    | [] => none
    | c :: rest =>
      if c == '"' then
        match parseStringBody rest with
        | none => none
        | some (k, r1) =>
          match skipWs r1 with
          | [] => none
          | colon :: r2 =>
            if colon == ':' then
              match parseVal fuel r2 with
              | none => none
              | some (v, r3) =>
                match skipWs r3 with
                | [] => none
                | sep :: r4 =>
                  if sep == ',' then
                    match parseMembers fuel (skipWs r4) with
                    | some (.obj fs, r5) => some (.obj ((k, v) :: fs), r5)
                    | _ => none
                  else if sep == Char.ofNat 125 then some (.obj [(k, v)], r4)
                  else none
            else none
      else none

/-- Parses array items up to the closing bracket (entered at a
non-bracket char). -/
def parseItems : Nat → List Char → Option (Json × List Char)
  | 0, _ => none
  | Nat.succ fuel, cs =>
    match parseVal fuel cs with
    | none => none
    | some (v, r1) =>
      match skipWs r1 with
      | [] => none
      | sep :: r2 =>
        if sep == ',' then
          match parseItems fuel r2 with
          | some (.arr vs, r3) => some (.arr (v :: vs), r3)
          | _ => none
        else if sep == ']' then some (.arr [v], r2)
        else none
end

/-- `json.Unmarshal` of a full string into a JSON value: the whole
input, up to trailing whitespace, must be one valid value. -/
def parseJson (s : String) : Option Json :=
  match parseVal (2 * s.length + 4) s.data with
  | some (j, rest) => if (skipWs rest).isEmpty then some j else none
  | none => none

/-- `json.Unmarshal([]byte(s), &args)` with `args` a fresh empty map:
`Unmarshal` validates the input before writing, so any error — invalid
JSON, or a top-level value that is not an object — leaves the map empty
(source: the `arguments` decoding in `processRequest`). -/
def goUnmarshalObj (s : String) : List (String × Json) :=
  match parseJson s with
  | some (.obj fs) => fs
  | _ => []


/- ### Source data types (package `proxy` and `config`) -/

/-- The fields of `config.Config` that `processRequest` reads. -/
structure Config where
  apiKey : String
  baseURL : String
  maxTokens : Int
  debug : Bool

/-- `proxy.Message`: role plus a content value whose decoded shape is
only discovered at translation time. -/
structure Message where
  role : String
  content : Json

/-- `proxy.Tool`: a declared function. -/
structure Tool where
  name : String
  description : String
  input_schema : Json

/-- `proxy.MessagesRequest` (`stream` is decoded but never read by
`processRequest`). -/
structure MessagesRequest where
  model : String
  messages : List Message
  maxTokens : Option Int
  temperature : Option Json
  stream : Option Bool
  tools : List Tool
  toolChoice : Option Json

/- ### Provider classification (`detectProvider`) -/

/-- `detectProvider`: first matching domain fragment wins, default
`"openai-compatible"`. -/
def detectProvider (baseURL : String) : String :=
  let b := goToLower baseURL
  if strContains b "groq.com" then "groq"
  else if strContains b "openrouter.ai" then "openrouter"
  else if strContains b "api.openai.com" then "openai"
  else if strContains b "fireworks.ai" then "fireworks"
  else if strContains b "huggingface.co" then "huggingface"
  else if strContains b "anthropic.com" then "anthropic"
  else "openai-compatible"

/- ### Tool declaration translation (`convertToolsForProvider`) -/

/-- The legacy flat declaration `name`/`description`/`parameters`
(the `groq` arm of `convertToolsForProvider`). -/
def legacyToolShape (t : Tool) : Json :=
  .obj [("name", .str t.name), ("description", .str t.description),
        ("parameters", t.input_schema)]

/-- The modern wrapped declaration (the default arm of
`convertToolsForProvider`). -/
def modernToolShape (t : Tool) : Json :=
  .obj [("type", .str "function"),
        ("function", .obj [("name", .str t.name), ("description", .str t.description),
                           ("parameters", t.input_schema)])]

/-- `convertToolsForProvider`: per tool, the `groq` provider gets the
legacy shape, every other provider the modern one. -/
def convertToolsForProvider (tools : List Tool) (provider : String) : List Json :=
  tools.map fun t => if provider == "groq" then legacyToolShape t else modernToolShape t

/- ### Direction A: `convertMessages` -/

/-- What the block loop of `convertMessages` does with one block of a
content sequence: contribute text, a tool-call descriptor, a tool-result
message, or nothing (non-object blocks and unrecognized `type` tags). -/
inductive BlockKind where
  | text : String → BlockKind
  | toolUse : Json → BlockKind
  | toolResult : Json → BlockKind
  | other : BlockKind

/-- The outbound tool-call descriptor built from a `tool_use` block:
id and name via comma-ok string assertions, input marshalled to a
string (`json.Marshal` of a missing input gives `null`). -/
def toolUseDescriptor (b : List (String × Json)) : Json :=
  .obj [("id", .str (strFieldOf b "id")), ("type", .str "function"),
        ("function", .obj [("name", .str (strFieldOf b "name")),
                           ("arguments", .str (serialize ((lookupField b "input").getD .null)))])]

/-- The outbound tool-result message built from a `tool_result` block. -/
def toolResultMessage (b : List (String × Json)) : Json :=
  .obj [("role", .str "tool"), ("content", (lookupField b "content").getD .null),
        ("tool_call_id", (lookupField b "tool_use_id").getD .null)]

/-- The switch body of the block loop: non-object blocks are skipped
(`continue`), the `type` tag is read with a comma-ok string assertion,
and an unrecognized tag falls through the switch. -/
def classifyBlock (blk : Json) : BlockKind :=
  match blk with
  | .obj b =>
    match lookupField b "type" with
    | some (.str t) =>
      if t == "text" then .text (strFieldOf b "text")
      else if t == "tool_use" then .toolUse (toolUseDescriptor b)
      else if t == "tool_result" then .toolResult (toolResultMessage b)
      else .other
    | _ => .other
  | _ => .other

/-- One iteration of the block loop over the accumulator
`(textAcc, tcalls, toolsRes)`. -/
def blockStep (acc : String × List Json × List Json) (blk : Json) :
    String × List Json × List Json :=
  match classifyBlock blk with
  | .text s => (acc.1 ++ s, acc.2.1, acc.2.2)
  | .toolUse d => (acc.1, acc.2.1 ++ [d], acc.2.2)
  | .toolResult r => (acc.1, acc.2.1, acc.2.2 ++ [r])
  | .other => acc

/-- The translation of one inbound message: a string content forwards
as-is; a block sequence runs the block loop and emits the combined
message (when it has text or tool calls) followed by the tool-result
messages; any other content shape emits nothing. -/
def convertMessage (role : String) (content : Json) : List Json :=
  match content with
  | .str s => [Json.obj [("role", .str role), ("content", .str s)]]
  | .arr blocks =>
    let acc := blocks.foldl blockStep ("", [], [])
    (if acc.1 ≠ "" ∨ 0 < acc.2.1.length then
       [Json.obj ([("role", .str role), ("content", .str acc.1)] ++
          (if 0 < acc.2.1.length then [("tool_calls", .arr acc.2.1)] else []))]
     else []) ++ acc.2.2
  | _ => []

/-- `convertMessages`: the per-message emissions, concatenated in
history order. -/
def convertMessages (msgs : List Message) : List Json :=
  msgs.flatMap fun m => convertMessage m.role m.content

/- ### Outbound payload assembly (`processRequest`, payload build) -/

/-- `maxT`: the server ceiling, overridden only by a smaller inbound
`max_tokens`. -/
def effectiveMaxTokens (ceiling : Int) (override : Option Int) : Int :=
  match override with
  | some o => if o < ceiling then o else ceiling
  | none => ceiling

/-- The outbound payload map: base fields, plus — when any tools were
declared — either the legacy `functions`/`function_call` pair (provider
`groq`) or the modern `tools`/`tool_choice` pair (every other provider),
the directive defaulting to `"auto"`. -/
def buildPayload (cfg : Config) (req : MessagesRequest) : Json :=
  let provider := detectProvider cfg.baseURL
  let toolsOrFuncs :=
    if req.tools.length > 0 then convertToolsForProvider req.tools provider else []
  Json.obj ([("model", .str req.model),
             ("messages", .arr (convertMessages req.messages)),
             ("temperature", req.temperature.getD .null),
             ("max_tokens", .num (effectiveMaxTokens cfg.maxTokens req.maxTokens))] ++
    (if toolsOrFuncs.length > 0 then
       (if provider == "groq" then
          [("functions", .arr toolsOrFuncs),
           ("function_call", req.toolChoice.getD (.str "auto"))]
        else
          [("tools", .arr toolsOrFuncs),
           ("tool_choice", req.toolChoice.getD (.str "auto"))])
     else []))

/- ### Go `%v` formatting (the upstream error message text) -/

/-- Space-joins rendered elements, as `fmt` prints slices and maps. -/
def joinSpace : List String → String
  | [] => ""
  | [s] => s
  | s :: t :: rest => s ++ " " ++ joinSpace (t :: rest)

mutual
/-- `fmt`'s `%v` of a decoded JSON value: strings print raw, `nil`
prints `<nil>`, slices bracket space-joined elements, maps print
`map[k:v ...]` with sorted keys. -/
def goFormat : Json → String
  | .null => "<nil>"
  | .bool true => "true"
  | .bool false => "false"
  | .num n => toString n
  | .str s => s
  | .arr xs => "[" ++ joinSpace (goFormatList xs) ++ "]"
  | .obj fs =>
    "map[" ++ joinSpace ((sortPairs (goFormatFields fs)).map fun p => p.1 ++ ":" ++ p.2) ++ "]"

/-- Formats each slice element. -/
def goFormatList : List Json → List String
  | [] => []
  | x :: xs => goFormat x :: goFormatList xs

/-- Formats each map value, keeping its key. -/
def goFormatFields : List (String × Json) → List (String × String)
  | [] => []
  | (k, v) :: fs => (k, goFormat v) :: goFormatFields fs
end

/- ### Direction B: result classification inside `processRequest` -/

/-- The error text `processRequest` returns for a payload with a
top-level `error` member: when the member is an object its `message`
field is formatted, otherwise the raw member is. -/
def upstreamErrorMsg (e : Json) : String :=
  match e with
  | .obj m => "OpenAI API error: " ++ goFormat ((lookupField m "message").getD .null)
  | _ => "OpenAI API error: " ++ goFormat e

/-- The first choice's message map: `choices` comma-ok asserted to a
slice, its first element and that element's `message` comma-ok asserted
to maps, any failure leaving Go's nil map. -/
def extractMessage (ocRes : Json) : List (String × Json) :=
  match ocRes.getField "choices" with
  | some (.arr (c :: _)) =>
    match c with
    | .obj chFields =>
      match lookupField chFields "message" with
      | some (.obj m) => m
      | _ => []
    | _ => []
  | _ => []

/-- The `tool_calls` member as a slice: empty when missing or not a
slice, so that only a non-empty slice selects the modern branch. -/
def toolCallsOf (message : List (String × Json)) : List Json :=
  match lookupField message "tool_calls" with
  | some (.arr l) => l
  | _ => []

/-- Decodes `arguments`: a string member is unmarshalled into a fresh
map (left empty on any decode error), anything else leaves the map
empty. -/
def decodeArgs (funcData : List (String × Json)) : List (String × Json) :=
  match lookupField funcData "arguments" with
  | some (.str s) => goUnmarshalObj s
  | _ => []

/-- The id string read from one `tool_calls` element
(`toolID, _ := tcMap["id"].(string)`). -/
def toolCallIdOf (tc : Json) : String :=
  strFieldOf (objFieldsOf tc) "id"

/-- One `tool_use` content block built from the `i`-th `tool_calls`
element; `gen i` stands for the `uuid.New().String()[:12]` drawn when
the read id string is empty. -/
def modernBlock (gen : Nat → String) (i : Nat) (tc : Json) : Json :=
  let tcMap := objFieldsOf tc
  let funcData := objFieldsOf ((lookupField tcMap "function").getD .null)
  let toolID0 := toolCallIdOf tc
  let toolID := if toolID0 == "" then gen i else toolID0
  .obj [("type", .str "tool_use"), ("id", .str toolID),
        ("name", (lookupField funcData "name").getD .null),
        ("input", .obj (decodeArgs funcData))]

/-- The modern branch: one `tool_use` block per `tool_calls` element,
in order. -/
def modernBlocks (tcs : List Json) (gen : Nat → String) : List Json :=
  tcs.enum.map fun p => modernBlock gen p.1 p.2

/-- The legacy probe: a `function_call` object, else a `tool` object,
else nothing. -/
def legacyFc (message : List (String × Json)) : Option (List (String × Json)) :=
  match lookupField message "function_call" with
  | some (.obj m) => some m
  | _ =>
    match lookupField message "tool" with
    | some (.obj m) => some m
    | _ => none

/-- The single `tool_use` block of the legacy branch; its id is always
freshly generated. -/
def legacyBlock (fc : List (String × Json)) (freshID : String) : Json :=
  .obj [("type", .str "tool_use"), ("id", .str freshID),
        ("name", (lookupField fc "name").getD .null),
        ("input", .obj (decodeArgs fc))]

/-- The plain-text block of the final branch (content read with a
comma-ok string assertion, so a missing or non-string content gives the
empty string). -/
def textBlock (message : List (String × Json)) : Json :=
  .obj [("type", .str "text"), ("text", .str (strFieldOf message "content"))]

/-- The content/stop-reason classification of `processRequest`:
a non-empty `tool_calls` slice wins, then a legacy `function_call` or
`tool` object, then plain text. -/
def buildContent (message : List (String × Json)) (gen : Nat → String) :
    List Json × String :=
  let tcs := toolCallsOf message
  if 0 < tcs.length then (modernBlocks tcs gen, "tool_use")
  else
    match legacyFc message with
    | some fc => ([legacyBlock fc (gen 0)], "tool_use")
    | none => ([textBlock message], "end_turn")

/-- The `usage` read of `processRequest` lines 322–325: the two raw
member values when `usage` is an object — and `none`, standing for the
run-time panic of the unguarded type assertion
`ocRes["usage"].(map[string]interface\x7b\x7d)`, when `usage` is missing or
not an object. -/
def extractUsage (ocRes : Json) : Option (Json × Json) :=
  match ocRes.getField "usage" with
  | some (.obj u) =>
    some ((lookupField u "prompt_tokens").getD .null,
          (lookupField u "completion_tokens").getD .null)
  | _ => none

/-- The response envelope map returned to the caller. -/
def responseEnvelope (model logID : String) (content : List Json)
    (stopReason : String) (pt ct : Json) : Json :=
  .obj [("id", .str ("msg_" ++ logID)), ("model", .str model),
        ("role", .str "assistant"), ("type", .str "message"),
        ("content", .arr content), ("stop_reason", .str stopReason),
        ("stop_sequence", .null),
        ("usage", .obj [("input_tokens", pt), ("output_tokens", ct)])]

/-- What came back from `client.Do` plus the body read and
`json.Unmarshal`: a transport error, or a status with the decoded body
(`none` when the body was not valid JSON). -/
inductive UpstreamOutcome where
  | transportError : String → UpstreamOutcome
  | reply : Int → Option Json → UpstreamOutcome

/-- How `processRequest` ends: a returned envelope, a returned error
(the handler turns it into a 500), or a run-time panic. -/
inductive GoResult (α : Type) where
  | ok : α → GoResult α
  | err : String → GoResult α
  | panic : GoResult α

/-- The observable outcome of one `processRequest` call: its return
value, whether the audit insert (`p.db.Exec`) was reached, and the
operator-log lines of interest. -/
structure ProcessOutcome where
  result : GoResult Json
  auditAttempted : Bool
  operatorLog : List String

/-- `processRequest` from the dispatch result on: transport errors and
undecodable bodies return the error at once; a body with a top-level
`error` member returns the provider error; otherwise the first choice's
message is classified into content blocks, the usage map is read (an
absent or non-object `usage` panics), the audit insert is attempted —
its failure only logged — and the envelope is returned.  `logID` stands
for the uuid prefix drawn at entry, `gen` for the uuid prefixes drawn
for generated tool ids, and `auditOk` for whether the insert succeeds. -/
def processRequest (cfg : Config) (req : MessagesRequest)
    (upstream : UpstreamOutcome) (logID : String) (gen : Nat → String)
    (auditOk : Bool) : ProcessOutcome :=
  match upstream with
  | .transportError msg => ⟨.err msg, false, []⟩
  | .reply _status body? =>
    match body? with
    | none => ⟨.err "invalid upstream JSON", false, []⟩
    | some ocRes =>
      match ocRes.getField "error" with
      | some e => ⟨.err (upstreamErrorMsg e), false, ["ERROR: OpenAI API error"]⟩
      | none =>
        let message := extractMessage ocRes
        let cs := buildContent message gen
        match extractUsage ocRes with
        | none => ⟨.panic, false, []⟩
        | some (pt, ct) =>
          ⟨.ok (responseEnvelope req.model logID cs.1 cs.2 pt ct), true,
           if auditOk then [] else ["Failed to persist API log"]⟩

/- ### Generic helper lemmas -/

/-- Appending the empty string on the right is the identity. -/
theorem strAppendEmpty (s : String) : s ++ "" = s :=
  String.ext (by rw [String.data_append]; simp)

/-- Appending the empty string on the left is the identity. -/
theorem strEmptyAppend (s : String) : "" ++ s = s :=
  String.ext (by rw [String.data_append]; simp)

/-- String concatenation is associative. -/
theorem strAppendAssoc (a b c : String) : a ++ b ++ c = a ++ (b ++ c) :=
  String.ext (by simp [String.data_append, List.append_assoc])

/-- `detectProvider` answers `groq` exactly when the lower-cased base
URL contains `groq.com` — the `groq` test is the first of the chain. -/
theorem detectProvider_beq_groq (baseURL : String) :
    (detectProvider baseURL == "groq") = strContains (goToLower baseURL) "groq.com" := by
  unfold detectProvider
  cases h : strContains (goToLower baseURL) "groq.com"
  · simp only [h, Bool.false_eq_true, if_false]
    split_ifs <;> rfl
  · simp [h]

/-- For the `groq` provider every declared tool takes the legacy flat
shape. -/
theorem convertTools_groq (tools : List Tool) :
    convertToolsForProvider tools "groq" = tools.map legacyToolShape := by
  simp [convertToolsForProvider]

/-- For any other provider tag every declared tool takes the modern
wrapped shape. -/
theorem convertTools_notGroq (tools : List Tool) (p : String)
    (h : (p == "groq") = false) :
    convertToolsForProvider tools p = tools.map modernToolShape := by
  simp [convertToolsForProvider, h]

/-- The payload's `max_tokens` member is always the clamped value. -/
theorem getField_max_tokens (cfg : Config) (req : MessagesRequest) :
    (buildPayload cfg req).getField "max_tokens"
      = some (.num (effectiveMaxTokens cfg.maxTokens req.maxTokens)) := rfl

/- ### Specification-shaped restatement of the block fold (for C4) -/

/-- The text a block contributes to the accumulated string (spec 4.2
step 1: `text` blocks contribute their text, all others nothing). -/
def textContrib (b : Json) : String :=
  match classifyBlock b with
  | .text s => s
  | _ => ""

/-- Spec step 1: the concatenation, in sequence order and with no
separator, of all text contributions. -/
def specText : List Json → String
  | [] => ""
  | b :: bs => textContrib b ++ specText bs

/-- Spec step 2: the tool-call descriptors of the `tool_use` blocks, in
sequence order. -/
def specToolCalls (blocks : List Json) : List Json :=
  blocks.filterMap fun b =>
    match classifyBlock b with
    | .toolUse d => some d
    | _ => none

/-- Spec step 4: the tool-result messages of the `tool_result` blocks,
in sequence order. -/
def specToolResults (blocks : List Json) : List Json :=
  blocks.filterMap fun b =>
    match classifyBlock b with
    | .toolResult r => some r
    | _ => none

/-- The spec's wording of the Direction-A fold (4.2): the combined
message — emitted exactly when the accumulated text is non-empty or
some descriptor was produced — followed by the tool-result messages. -/
def convertBlocksSpec (role : String) (blocks : List Json) : List Json :=
  (if specText blocks ≠ "" ∨ 0 < (specToolCalls blocks).length then
     [Json.obj ([("role", .str role), ("content", .str (specText blocks))] ++
        (if 0 < (specToolCalls blocks).length then
           [("tool_calls", .arr (specToolCalls blocks))]
         else []))]
   else []) ++ specToolResults blocks

/-- The block loop's accumulator, started anywhere, ends at the
spec-shaped values appended to its start. -/
theorem foldl_blockStep_eq (blocks : List Json) (t : String) (c r : List Json) :
    blocks.foldl blockStep (t, c, r)
      = (t ++ specText blocks, c ++ specToolCalls blocks, r ++ specToolResults blocks) := by
  induction blocks generalizing t c r with
  | nil => simp [specText, specToolCalls, specToolResults, strAppendEmpty]
  | cons b bs ih =>
    rw [List.foldl_cons]
    cases hb : classifyBlock b with
    | text s =>
      simp only [blockStep, hb, ih, specText, textContrib, specToolCalls, specToolResults,
        List.filterMap_cons, strAppendAssoc]
    | toolUse d =>
      simp only [blockStep, hb, ih, specText, textContrib, specToolCalls, specToolResults,
        List.filterMap_cons]
      simp [strAppendAssoc]
    | toolResult r2 =>
      simp only [blockStep, hb, ih, specText, textContrib, specToolCalls, specToolResults,
        List.filterMap_cons]
      simp
    | other =>
      simp only [blockStep, hb, ih, specText, textContrib, specToolCalls, specToolResults,
        List.filterMap_cons]
      simp [strEmptyAppend]

/- ### Claim theorems -/

/-- C4: a block-sequence message folds into at most one combined
outbound message plus tool-result messages: the text blocks' text is
concatenated in order with no separator, each `tool_use` block becomes
a descriptor with id, name and string-serialized input, the combined
message is emitted iff the text is non-empty or a descriptor exists,
the tool-result messages follow it in block order, and a block of
unrecognized tag contributes nothing. -/
theorem claim4_block_sequence_fold :
    (∀ role blocks, convertMessage role (.arr blocks) = convertBlocksSpec role blocks) ∧
    (∀ role b blocks, classifyBlock b = .other →
        convertMessage role (.arr (b :: blocks)) = convertMessage role (.arr blocks)) := by
  have key : ∀ role blocks, convertMessage role (.arr blocks) = convertBlocksSpec role blocks := by
    intro role blocks
    simp only [convertMessage, foldl_blockStep_eq, convertBlocksSpec, strEmptyAppend,
      List.nil_append]
  refine ⟨key, ?_⟩
  intro role b blocks hb
  rw [key, key]
  simp [convertBlocksSpec, specText, textContrib, specToolCalls, specToolResults,
    List.filterMap_cons, hb, strEmptyAppend]

/-- C4 witness: an `image`-tagged block is dropped and the rest of the
sequence translates as if it were absent. -/
theorem claim4_witness :
    convertMessage "user"
        (.arr [.obj [("type", .str "image"), ("source", .str "s")],
               .obj [("type", .str "text"), ("text", .str "hi")]])
      = convertMessage "user" (.arr [.obj [("type", .str "text"), ("text", .str "hi")]]) :=
  claim4_block_sequence_fold.2 "user" (.obj [("type", .str "image"), ("source", .str "s")])
    [.obj [("type", .str "text"), ("text", .str "hi")]] rfl

/-- C10: an inbound message whose content is neither a string nor an
array emits nothing, and the surrounding history translates exactly as
if the message were absent. -/
theorem claim10_unhandled_content_dropped (pre post : List Message) (m : Message)
    (h : m.content.isStringOrArray = false) :
    convertMessage m.role m.content = [] ∧
    convertMessages (pre ++ m :: post) = convertMessages (pre ++ post) := by
  have h1 : convertMessage m.role m.content = [] := by
    cases hc : m.content
    · rfl
    · rfl
    · rfl
    · rw [hc] at h; simp [Json.isStringOrArray] at h
    · rw [hc] at h; simp [Json.isStringOrArray] at h
    · rfl
  refine ⟨h1, ?_⟩
  simp [convertMessages, h1]

/-- C10 witness: a `null`-content message between two string-content
messages is silently dropped. -/
theorem claim10_witness :
    convertMessage "user" Json.null = [] ∧
    convertMessages [⟨"user", .str "a"⟩, ⟨"user", .null⟩, ⟨"assistant", .str "b"⟩]
      = convertMessages [⟨"user", .str "a"⟩, ⟨"assistant", .str "b"⟩] :=
  claim10_unhandled_content_dropped [⟨"user", .str "a"⟩] [⟨"assistant", .str "b"⟩]
    ⟨"user", .null⟩ rfl

/-- C7: the outbound `max_tokens` is the minimum of the server ceiling
and the inbound override when one is present, and the ceiling when
absent; in particular 16384 with override 2000 gives 2000, with
override 99999 gives 16384, and with no override gives 16384. -/
theorem claim7_max_token_clamping :
    (∀ cfg req o, req.maxTokens = some o →
        (buildPayload cfg req).getField "max_tokens"
          = some (.num (min cfg.maxTokens o))) ∧
    (∀ cfg req, req.maxTokens = none →
        (buildPayload cfg req).getField "max_tokens" = some (.num cfg.maxTokens)) ∧
    effectiveMaxTokens 16384 (some 2000) = 2000 ∧
    effectiveMaxTokens 16384 (some 99999) = 16384 ∧
    effectiveMaxTokens 16384 none = 16384 := by
  have hmin : ∀ c o : Int, effectiveMaxTokens c (some o) = min c o := by
    intro c o
    simp only [effectiveMaxTokens]
    split_ifs with h
    · exact (min_eq_right h.le).symm
    · exact (min_eq_left (le_of_not_lt h)).symm
  refine ⟨?_, ?_, by norm_num [effectiveMaxTokens], by norm_num [effectiveMaxTokens], rfl⟩
  · intro cfg req o ho
    rw [getField_max_tokens, ho, hmin]
  · intro cfg req ho
    rw [getField_max_tokens, ho]
    rfl

/-- C7 witness: concrete ceiling 16384 with override 2000, and with no
override. -/
theorem claim7_witness :
    (buildPayload ⟨"k", "https://api.groq.com/openai/v1", 16384, false⟩
        ⟨"m", [], some 2000, none, none, [], none⟩).getField "max_tokens"
      = some (.num (min 16384 2000)) ∧
    (buildPayload ⟨"k", "https://api.groq.com/openai/v1", 16384, false⟩
        ⟨"m", [], none, none, none, [], none⟩).getField "max_tokens"
      = some (.num 16384) :=
  ⟨claim7_max_token_clamping.1 ⟨"k", "https://api.groq.com/openai/v1", 16384, false⟩
      ⟨"m", [], some 2000, none, none, [], none⟩ 2000 rfl,
   claim7_max_token_clamping.2.1 ⟨"k", "https://api.groq.com/openai/v1", 16384, false⟩
      ⟨"m", [], none, none, none, [], none⟩ rfl⟩

/-- C9: the value `processRequest` returns to the handler, and whether
it got as far as attempting the audit insert, are identical whether the
audit insert succeeds or fails — the insert error is only logged. -/
theorem claim9_audit_non_interference (cfg : Config) (req : MessagesRequest)
    (upstream : UpstreamOutcome) (logID : String) (gen : Nat → String) :
    (processRequest cfg req upstream logID gen true).result
        = (processRequest cfg req upstream logID gen false).result ∧
    (processRequest cfg req upstream logID gen true).auditAttempted
        = (processRequest cfg req upstream logID gen false).auditAttempted := by
  cases upstream with
  | transportError m => exact ⟨rfl, rfl⟩
  | reply st body? =>
    cases body? with
    | none => exact ⟨rfl, rfl⟩
    | some ocRes =>
      simp only [processRequest]
      cases ocRes.getField "error" with
      | some e => exact ⟨rfl, rfl⟩
      | none =>
        cases extractUsage ocRes with
        | none => exact ⟨rfl, rfl⟩
        | some u => exact ⟨rfl, rfl⟩

/- ### Concrete fixtures shared by several claims -/

/-- A deterministic stand-in for the uuid prefixes drawn during one
call. -/
def genEx : Nat → String := fun n => "uid" ++ toString n

/-- A concrete configuration. -/
def cfgEx : Config := ⟨"k", "https://api.groq.com/openai/v1", 16384, false⟩

/-- A concrete inbound request. -/
def reqEx : MessagesRequest := ⟨"m1", [], none, none, none, [], none⟩

/-- An upstream body carrying both a top-level `error` object and a
well-formed `choices` array. -/
def errBodyEx : Json :=
  .obj [("error", .obj [("message", .str "boom")]),
        ("choices", .arr [.obj [("message", .obj [("content", .str "hi")])]])]

/-- A `tool_calls` element with id `call1`. -/
def tcEx : Json :=
  .obj [("id", .str "call1"), ("type", .str "function"),
        ("function", .obj [("name", .str "f"), ("arguments", .str "null")])]

/-- An upstream message carrying both a non-empty `tool_calls` slice
and a legacy `function_call` object. -/
def msgBothEx : List (String × Json) :=
  [("tool_calls", .arr [tcEx]),
   ("function_call", .obj [("name", .str "legacy"), ("arguments", .str "null")])]

/-- An upstream message carrying only a legacy `function_call`. -/
def msgLegacyEx : List (String × Json) :=
  [("function_call", .obj [("name", .str "legacy"), ("arguments", .str "null")])]

/-- An upstream message carrying only plain text. -/
def msgTextEx : List (String × Json) := [("content", .str "hello")]

/-- C1: the result classification is a fixed first-match order — a
top-level `error` member yields a provider error and no envelope
whatever else the payload holds; otherwise a non-empty `tool_calls`
slice yields one `tool_use` block per element with stop reason
`tool_use` even when legacy members are also present; otherwise a
`function_call` or `tool` object yields a single `tool_use` block with
stop reason `tool_use`; otherwise the message's plain text yields one
`text` block with stop reason `end_turn`. -/
theorem claim1_result_classification_order :
    (∀ cfg req status body logID gen auditOk e, body.getField "error" = some e →
        (processRequest cfg req (.reply status (some body)) logID gen auditOk).result
          = .err (upstreamErrorMsg e)) ∧
    (∀ message gen tcs, lookupField message "tool_calls" = some (.arr tcs) → tcs ≠ [] →
        buildContent message gen = (modernBlocks tcs gen, "tool_use") ∧
        (modernBlocks tcs gen).length = tcs.length) ∧
    (∀ message gen fc, toolCallsOf message = [] → legacyFc message = some fc →
        buildContent message gen = ([legacyBlock fc (gen 0)], "tool_use")) ∧
    (∀ message gen, toolCallsOf message = [] → legacyFc message = none →
        buildContent message gen = ([textBlock message], "end_turn")) := by
  refine ⟨?_, ?_, ?_, ?_⟩
  · intro cfg req status body logID gen auditOk e he
    simp [processRequest, he]
  · intro message gen tcs h1 h2
    have htc : toolCallsOf message = tcs := by simp [toolCallsOf, h1]
    constructor
    · simp only [buildContent, htc]
      rw [if_pos (List.length_pos.mpr h2)]
    · simp [modernBlocks]
  · intro message gen fc h1 h2
    simp [buildContent, h1, h2]
  · intro message gen h1 h2
    simp [buildContent, h1, h2]

/-- C1 witness: the four branches at concrete payloads — in particular
a body holding both `error` and `choices` classifies as a provider
error, and a message holding both `tool_calls` and `function_call`
resolves to the modern shape. -/
theorem claim1_witness :
    (processRequest cfgEx reqEx (.reply 200 (some errBodyEx)) "log1" genEx true).result
        = .err (upstreamErrorMsg (.obj [("message", .str "boom")])) ∧
    buildContent msgBothEx genEx = (modernBlocks [tcEx] genEx, "tool_use") ∧
    buildContent msgLegacyEx genEx
        = ([legacyBlock [("name", .str "legacy"), ("arguments", .str "null")] (genEx 0)],
           "tool_use") ∧
    buildContent msgTextEx genEx = ([textBlock msgTextEx], "end_turn") :=
  ⟨claim1_result_classification_order.1 cfgEx reqEx 200 errBodyEx "log1" genEx true
      (.obj [("message", .str "boom")]) rfl,
   (claim1_result_classification_order.2.1 msgBothEx genEx [tcEx] rfl
      (List.cons_ne_nil _ _)).1,
   claim1_result_classification_order.2.2.1 msgLegacyEx genEx
      [("name", .str "legacy"), ("arguments", .str "null")] rfl rfl,
   claim1_result_classification_order.2.2.2 msgTextEx genEx rfl rfl⟩

/-- C5: with tools declared, a base URL containing `groq.com`
(case-insensitively) makes the payload carry the legacy
`functions`/`function_call` pair — the declarations in flat shape, the
caller's directive forwarded unchanged with default `"auto"` — and no
`tools`/`tool_choice`; any other base URL makes it carry the modern
`tools`/`tool_choice` pair and no `functions`/`function_call`; and no
payload ever carries both pairs. -/
theorem claim5_provider_tool_dispatch :
    (∀ cfg req, req.tools ≠ [] →
        strContains (goToLower cfg.baseURL) "groq.com" = true →
        (buildPayload cfg req).getField "functions"
            = some (.arr (req.tools.map legacyToolShape)) ∧
        (buildPayload cfg req).getField "function_call"
            = some (req.toolChoice.getD (.str "auto")) ∧
        (buildPayload cfg req).getField "tools" = none ∧
        (buildPayload cfg req).getField "tool_choice" = none) ∧
    (∀ cfg req, req.tools ≠ [] →
        strContains (goToLower cfg.baseURL) "groq.com" = false →
        (buildPayload cfg req).getField "tools"
            = some (.arr (req.tools.map modernToolShape)) ∧
        (buildPayload cfg req).getField "tool_choice"
            = some (req.toolChoice.getD (.str "auto")) ∧
        (buildPayload cfg req).getField "functions" = none ∧
        (buildPayload cfg req).getField "function_call" = none) ∧
    (∀ cfg req, (buildPayload cfg req).getField "functions" = none ∨
        (buildPayload cfg req).getField "tools" = none) := by
  refine ⟨?_, ?_, ?_⟩
  · intro cfg req htools hg
    have hbeq : (detectProvider cfg.baseURL == "groq") = true := by
      rw [detectProvider_beq_groq, hg]
    have hp : detectProvider cfg.baseURL = "groq" := eq_of_beq hbeq
    obtain ⟨t, ts, he⟩ : ∃ t ts, req.tools = t :: ts := by
      cases hrt : req.tools with
      | nil => exact absurd hrt htools
      | cons t ts => exact ⟨t, ts, rfl⟩
    simp only [buildPayload, hp, he, convertTools_groq]
    simp [Json.getField, lookupField]
  · intro cfg req htools hg
    have hbeq : (detectProvider cfg.baseURL == "groq") = false := by
      rw [detectProvider_beq_groq, hg]
    obtain ⟨t, ts, he⟩ : ∃ t ts, req.tools = t :: ts := by
      cases hrt : req.tools with
      | nil => exact absurd hrt htools
      | cons t ts => exact ⟨t, ts, rfl⟩
    simp only [buildPayload, he, convertTools_notGroq _ _ hbeq, hbeq]
    simp [Json.getField, lookupField]
  · intro cfg req
    cases hrt : req.tools with
    | nil =>
      left
      simp only [buildPayload, hrt]
      simp [Json.getField, lookupField]
    | cons t ts =>
      cases hbeq : (detectProvider cfg.baseURL == "groq") with
      | true =>
        right
        simp only [buildPayload, hrt, hbeq, convertTools_groq, eq_of_beq hbeq]
        simp [Json.getField, lookupField]
      | false =>
        left
        simp only [buildPayload, hrt, hbeq, convertTools_notGroq _ _ hbeq]
        simp [Json.getField, lookupField]

/-- A concrete tool declaration. -/
def toolEx : Tool := ⟨"lookup", "finds things", .obj [("type", .str "object")]⟩

/-- A request declaring one tool. -/
def reqToolsEx : MessagesRequest := ⟨"m1", [], none, none, none, [toolEx], none⟩

/-- A configuration pointing at an OpenRouter base URL. -/
def cfgOpenRouterEx : Config := ⟨"k", "https://openrouter.ai/api/v1", 16384, false⟩

/-- C5 witness: the groq base URL gets `functions` and no `tools`; the
OpenRouter base URL gets `tools` and no `functions`. -/
theorem claim5_witness :
    (buildPayload cfgEx reqToolsEx).getField "functions"
        = some (.arr [legacyToolShape toolEx]) ∧
    (buildPayload cfgEx reqToolsEx).getField "tools" = none ∧
    (buildPayload cfgOpenRouterEx reqToolsEx).getField "tools"
        = some (.arr [modernToolShape toolEx]) ∧
    (buildPayload cfgOpenRouterEx reqToolsEx).getField "functions" = none :=
  ⟨(claim5_provider_tool_dispatch.1 cfgEx reqToolsEx (List.cons_ne_nil _ _) rfl).1,
   (claim5_provider_tool_dispatch.1 cfgEx reqToolsEx (List.cons_ne_nil _ _) rfl).2.2.1,
   (claim5_provider_tool_dispatch.2.1 cfgOpenRouterEx reqToolsEx (List.cons_ne_nil _ _) rfl).1,
   (claim5_provider_tool_dispatch.2.1 cfgOpenRouterEx reqToolsEx (List.cons_ne_nil _ _) rfl).2.2.1⟩

/-- A well-formed success body with no `usage` member. -/
def noUsageBody : Json :=
  .obj [("choices", .arr [.obj [("message", .obj [("content", .str "hi")])]])]

/-- C2: where the claim says a missing `usage` object is treated as
zero, the source's unguarded type assertion
`ocRes["usage"].(map[string]interface\x7b\x7d)` panics instead, aborting the
response before the audit insert — here evaluated at a success payload
that simply lacks `usage`. -/
theorem claim2_missing_usage_panics :
    extractUsage noUsageBody = none ∧
    (processRequest cfgEx reqEx (.reply 200 (some noUsageBody)) "log2" genEx true).result
        = .panic ∧
    (processRequest cfgEx reqEx (.reply 200 (some noUsageBody)) "log2" genEx true).auditAttempted
        = false :=
  ⟨rfl, rfl, rfl⟩

/-- C3 counterexample: at a concrete transport failure, and at a
concrete provider-error body, `processRequest` returns before the audit
insert — `auditAttempted` is false, though the claim says an insert is
still attempted. -/
theorem claim3_counterexample :
    (processRequest cfgEx reqEx (.transportError "connection refused") "log3" genEx
        true).result = .err "connection refused" ∧
    (processRequest cfgEx reqEx (.transportError "connection refused") "log3" genEx
        true).auditAttempted = false ∧
    (processRequest cfgEx reqEx (.reply 500 (some errBodyEx)) "log4" genEx
        true).auditAttempted = false :=
  ⟨rfl, rfl, rfl⟩

/-- C3 amended: a transport error or a provider-error body makes the
caller receive an error response, and no audit-record insert is
attempted — the insert sits only on the success path, after
classification. -/
theorem claim3_no_audit_on_upstream_failure :
    (∀ cfg req msg logID gen auditOk,
        (processRequest cfg req (.transportError msg) logID gen auditOk).result = .err msg ∧
        (processRequest cfg req (.transportError msg) logID gen auditOk).auditAttempted
          = false) ∧
    (∀ cfg req status body e logID gen auditOk, body.getField "error" = some e →
        (processRequest cfg req (.reply status (some body)) logID gen auditOk).result
          = .err (upstreamErrorMsg e) ∧
        (processRequest cfg req (.reply status (some body)) logID gen auditOk).auditAttempted
          = false) := by
  refine ⟨fun _ _ _ _ _ _ => ⟨rfl, rfl⟩, ?_⟩
  intro cfg req status body e logID gen auditOk he
  constructor <;> simp [processRequest, he]

/-- C3 witness: the amended behaviour at a fresh concrete transport
failure and a fresh concrete provider-error reply. -/
theorem claim3_witness :
    (processRequest cfgOpenRouterEx reqEx (.transportError "dial tcp: refused") "log7" genEx
        false).result = .err "dial tcp: refused" ∧
    (processRequest cfgOpenRouterEx reqEx (.reply 502 (some errBodyEx)) "log8" genEx
        false).auditAttempted = false :=
  ⟨(claim3_no_audit_on_upstream_failure.1 cfgOpenRouterEx reqEx "dial tcp: refused" "log7"
      genEx false).1,
   (claim3_no_audit_on_upstream_failure.2 cfgOpenRouterEx reqEx 502 errBodyEx
      (.obj [("message", .str "boom")]) "log8" genEx false rfl).2⟩

/-- The concrete `tool_use` block of the round-trip property. -/
def toolUseBlockEx : Json :=
  .obj [("type", .str "tool_use"), ("id", .str "t1"), ("name", .str "lookup"),
        ("input", .obj [("q", .str "x")])]

/-- The outbound descriptor the block marshals to, its arguments being
exactly the input's JSON text. -/
def descEx : Json :=
  .obj [("id", .str "t1"), ("type", .str "function"),
        ("function", .obj [("name", .str "lookup"),
                           ("arguments", .str (lbrace ++ "\"q\":\"x\"" ++ rbrace))])]

/-- A `tool_calls` element whose `id` member is present but holds the
number 7 rather than a string. -/
def tcNumIdEx : Json :=
  .obj [("id", .num 7),
        ("function", .obj [("name", .str "f"), ("arguments", .str "null")])]

/-- C6 counterexample: this element's `id` member is present — the
upstream did not omit it — yet the decoded block carries a freshly
generated identifier, because the id is read through a string
assertion whose failure leaves the empty string; so a fresh identifier
is not generated only when the upstream omitted the id. -/
theorem claim6_counterexample :
    lookupField (objFieldsOf tcNumIdEx) "id" = some (.num 7) ∧
    (modernBlock genEx 0 tcNumIdEx).getField "id" = some (.str "uid0") ∧
    Json.str "uid0" ≠ Json.num 7 :=
  ⟨rfl, rfl, fun h => Json.noConfusion h⟩

/-- C6 amended: the concrete modern round trip holds — the block with
id `t1`, name `lookup`, input `q:x` marshals outbound to a descriptor
whose `function.arguments` is the input's JSON text, and echoing that
descriptor back decodes to the identical block with stop reason
`tool_use`; in general the upstream id is preserved exactly when it
reads back as a non-empty string, and a fresh identifier is generated
exactly when the id is absent, empty, or not a string. -/
theorem claim6_tool_roundtrip_modern :
    convertMessages [⟨"assistant", .arr [toolUseBlockEx]⟩]
        = [.obj [("role", .str "assistant"), ("content", .str ""),
                 ("tool_calls", .arr [descEx])]] ∧
    buildContent [("tool_calls", .arr [descEx])] genEx = ([toolUseBlockEx], "tool_use") ∧
    (∀ gen i tc, toolCallIdOf tc ≠ "" →
        (modernBlock gen i tc).getField "id" = some (.str (toolCallIdOf tc))) ∧
    (∀ gen i tc, toolCallIdOf tc = "" →
        (modernBlock gen i tc).getField "id" = some (.str (gen i))) := by
  refine ⟨rfl, rfl, ?_, ?_⟩
  · intro gen i tc h
    simp [modernBlock, Json.getField, lookupField, h]
  · intro gen i tc h
    simp [modernBlock, Json.getField, lookupField, h]

/-- C6 witness: the preserved-id arm at the concrete echoed descriptor
(id `t1`), and the fresh-id arm at a descriptor with an empty id. -/
theorem claim6_witness :
    (modernBlock genEx 0 descEx).getField "id" = some (.str (toolCallIdOf descEx)) ∧
    (modernBlock genEx 1 (.obj [("id", .str "")])).getField "id" = some (.str (genEx 1)) :=
  ⟨claim6_tool_roundtrip_modern.2.2.1 genEx 0 descEx (by decide),
   claim6_tool_roundtrip_modern.2.2.2 genEx 1 (.obj [("id", .str "")]) rfl⟩

/-- The malformed arguments string of the resilience property. -/
def badArgsEx : String := lbrace ++ "not json"

/-- The modern tool-call element carrying the malformed arguments. -/
def tcBadEx : Json :=
  .obj [("id", .str "call1"), ("type", .str "function"),
        ("function", .obj [("name", .str "f"), ("arguments", .str badArgsEx)])]

/-- The concrete `usage` object of the resilience bodies. -/
def usageEx : Json :=
  .obj [("prompt_tokens", .num 3), ("completion_tokens", .num 5)]

/-- Wraps a message map into a one-choice success body with the
concrete usage. -/
def bodyWithMessage (message : List (String × Json)) : Json :=
  .obj [("choices", .arr [.obj [("message", .obj message)]]), ("usage", usageEx)]

/-- A success body whose single modern tool call carries the malformed
arguments. -/
def modernBadBody : Json :=
  bodyWithMessage [("tool_calls", .arr [tcBadEx])]

/-- A success body whose legacy `function_call` carries the malformed
arguments. -/
def legacyBadBody : Json :=
  bodyWithMessage [("function_call", .obj [("name", .str "f"), ("arguments", .str badArgsEx)])]

/-- C8: the arguments string `(lbrace)not json` fails to decode and
leaves the input mapping empty, and on both the modern `tool_calls`
path and the legacy `function_call` path the call still returns a
successful envelope whose `tool_use` block has empty input. -/
theorem claim8_malformed_arguments_resilience :
    goUnmarshalObj badArgsEx = [] ∧
    (processRequest cfgEx reqEx (.reply 200 (some modernBadBody)) "log5" genEx true).result
        = .ok (responseEnvelope "m1" "log5"
            [.obj [("type", .str "tool_use"), ("id", .str "call1"),
                   ("name", .str "f"), ("input", .obj [])]]
            "tool_use" (.num 3) (.num 5)) ∧
    (processRequest cfgEx reqEx (.reply 200 (some legacyBadBody)) "log6" genEx true).result
        = .ok (responseEnvelope "m1" "log6"
            [.obj [("type", .str "tool_use"), ("id", .str "uid0"),
                   ("name", .str "f"), ("input", .obj [])]]
            "tool_use" (.num 3) (.num 5)) ∧
    (processRequest cfgEx reqEx (.reply 200 (some modernBadBody)) "log5" genEx
        true).auditAttempted = true :=
  ⟨rfl, rfl, rfl, rfl⟩
